import Mathlib

/-
Verification of the kalc command-line calculator (src/main.rs): a shallow
embedding of its tokenizer, recursive-descent parser, AST evaluator and
float formatter, together with proofs of the specified properties.

Modelling decisions, stated once here:

* Numbers. The source computes with `f64`. We model floating-point values
  with the type `FP`: an exact rational (`FP.finite`), the two infinities,
  and `nan`. Arithmetic on `FP` follows IEEE-754 binary64 semantics for
  special values (infinity and NaN propagation, the sign rules of
  `x / 0`), but finite arithmetic is exact rational arithmetic: rounding
  and signed zero are not modelled. Every concrete computation appearing
  in a theorem below is exact in binary64, so on those inputs the model
  agrees with the source bit for bit.

* Characters. The source's initial validation and its number-literal
  accumulation loop use Rust's Unicode-aware `char::is_numeric` (true on
  General_Category Nd, Nl and No), while the character dispatch for
  starting a literal uses the ASCII range `'0'..='9'`. The model keeps
  this distinction: `rust_is_numeric` is `Char.isDigit` together with
  the full table of the remaining Nd/Nl/No codepoint ranges (Unicode
  14.0.0), and the dispatch uses `Char.isDigit`. A character such as
  `'¾'` is therefore numeric but not a digit, exactly as in the source.

* Loops. The source's `while` loops each consume at least one element of
  the remaining input per iteration. They are modelled by structurally
  recursive functions taking an explicit fuel argument; the wrappers pass
  `length + 1`, which is always sufficient, and fuel-irrelevance lemmas
  (`tokenize_loopF_fuel`, `parse_multiplicative_loopF_fuel`,
  `parse_additive_loopF_fuel`) show the result does not depend on the
  choice of any sufficient fuel.

* Number-literal conversion. `digits.parse::<f64>()` is modelled by
  `parseNumLit`: it fails when Rust's parse fails on the shapes of
  string the tokenizer can accumulate (empty, a character other than an
  ASCII digit or point — which includes the non-ASCII numeric characters
  the accumulation loop admits — more than one point, or no digit at
  all), and otherwise converts the decimal value to binary64 with
  round-to-nearest, ties-to-even (`roundF64Pos`), as Rust does; the
  rounded value is an exact rational, which is what `f64` values are.
  One deliberate cut: a literal at or above the binary64 overflow
  threshold (around 1.8e308, i.e. hundreds of digits) is mapped to
  failure here, where Rust yields an infinite literal; no claim concerns
  such literals, and this keeps `Token`/`ASTNode` leaves rational as the
  spec's data-model invariant describes.

* Formatting. `format!("{:.0}", v)` is modelled on the integral values on
  which `format_float` invokes it (renders the integer, no rounding
  needed); `format!("{}", v)` is modelled as sign, integer part, and the
  exact terminating decimal expansion of the fractional part (up to 100
  digits), which coincides with Rust's shortest-roundtrip rendering on
  every decimal-finite value appearing below; `inf`, `-inf` and `NaN`
  render as in Rust.
-/

/-- Error taxonomy of the program (the source uses `anyhow` messages; these
constructors correspond one-to-one to the distinct failure messages). -/
inductive Err
  | invalidExpression
  | unrecognizedChar (c : Char)
  | numericParseFailure
  | parseFailure
deriving DecidableEq, Repr

/-- Lexical tokens, mirroring `enum Token` in the source. -/
inductive Token
  | add
  | sub
  | mul
  | div
  | number (n : ℚ)
  | eof
deriving DecidableEq, Repr

/-- Binary operators, mirroring `enum Op` in the source. -/
inductive Op
  | mul
  | add
  | sub
  | div
deriving DecidableEq, Repr

/-- AST nodes, mirroring `enum ASTNode` in the source. -/
inductive ASTNode
  | number (n : ℚ)
  | binaryOp (left : ASTNode) (op : Op) (right : ASTNode)
deriving DecidableEq, Repr

/-- Model of an `f64` value: an exact rational, an infinity, or NaN. -/
inductive FP
  | finite (q : ℚ)
  | posInf
  | negInf
  | nan
deriving DecidableEq, Repr

/-- IEEE-754 addition on `FP` (exact in the finite case). -/
def FP.add : FP → FP → FP
  | .nan, _ => .nan
  | _, .nan => .nan
  | .posInf, .negInf => .nan
  | .negInf, .posInf => .nan
  | .posInf, _ => .posInf
  | _, .posInf => .posInf
  | .negInf, _ => .negInf
  | _, .negInf => .negInf
  | .finite a, .finite b => .finite (a + b)

/-- IEEE-754 subtraction on `FP` (exact in the finite case). -/
def FP.sub : FP → FP → FP
  | .nan, _ => .nan
  | _, .nan => .nan
  | .posInf, .posInf => .nan
  | .negInf, .negInf => .nan
  | .posInf, _ => .posInf
  | _, .posInf => .negInf
  | .negInf, _ => .negInf
  | _, .negInf => .posInf
  | .finite a, .finite b => .finite (a - b)

/-- IEEE-754 multiplication on `FP` (exact in the finite case). -/
def FP.mul : FP → FP → FP
  | .nan, _ => .nan
  | _, .nan => .nan
  | .posInf, .posInf => .posInf
  | .posInf, .negInf => .negInf
  | .negInf, .posInf => .negInf
  | .negInf, .negInf => .posInf
  | .posInf, .finite b => if b = 0 then .nan else if 0 < b then .posInf else .negInf
  | .finite a, .posInf => if a = 0 then .nan else if 0 < a then .posInf else .negInf
  | .negInf, .finite b => if b = 0 then .nan else if 0 < b then .negInf else .posInf
  | .finite a, .negInf => if a = 0 then .nan else if 0 < a then .negInf else .posInf
  | .finite a, .finite b => .finite (a * b)

/-- IEEE-754 division on `FP`: division of a nonzero finite value by zero
yields a signed infinity, `0 / 0` yields NaN (signed zero not modelled). -/
def FP.div : FP → FP → FP
  | .nan, _ => .nan
  | _, .nan => .nan
  | .posInf, .posInf => .nan
  | .posInf, .negInf => .nan
  | .negInf, .posInf => .nan
  | .negInf, .negInf => .nan
  | .posInf, .finite b => if 0 ≤ b then .posInf else .negInf
  | .negInf, .finite b => if 0 ≤ b then .negInf else .posInf
  | .finite _, .posInf => .finite 0
  | .finite _, .negInf => .finite 0
  | .finite a, .finite b =>
    if b = 0 then
      if a = 0 then .nan else if 0 < a then .posInf else .negInf
    else .finite (a / b)

/-- `ASTNode::eval`: leaves return their value; `BinaryOp` evaluates both
children, then applies the operator. Total, as in the source. -/
def ASTNode.eval : ASTNode → FP
  | .number n => .finite n
  | .binaryOp left op right =>
    let a := left.eval
    let b := right.eval
    match op with
    | .mul => a.mul b
    | .add => a.add b
    | .sub => a.sub b
    | .div => a.div b

/-- Numeric value of a decimal digit character (zero on non-digits). -/
def digitVal : Char → ℕ
  | '0' => 0
  | '1' => 1
  | '2' => 2
  | '3' => 3
  | '4' => 4
  | '5' => 5
  | '6' => 6
  | '7' => 7
  | '8' => 8
  | '9' => 9
  | _ => 0

/-- Base-10 value of a list of digit characters. -/
def digitsToNat (s : List Char) : ℕ :=
  s.foldl (fun a c => 10 * a + digitVal c) 0

/-- Number of decimal points in a character list. -/
def countDots (s : List Char) : ℕ := s.countP (· = '.')

/-- The codepoint ranges of Unicode 14.0.0 General_Category Nd, Nl and
No, excluding the ASCII digits (which `Char.isDigit` covers): the
non-ASCII part of Rust's `char::is_numeric`. -/
def rustNumericRanges : List (ℕ × ℕ) := [
  (178, 179), (185, 185), (188, 190), (1632, 1641), (1776, 1785), (1984, 1993), (2406, 2415),
  (2534, 2543), (2548, 2553), (2662, 2671), (2790, 2799), (2918, 2927), (2930, 2935),
  (3046, 3058), (3174, 3183), (3192, 3198), (3302, 3311), (3416, 3422), (3430, 3448),
  (3558, 3567), (3664, 3673), (3792, 3801), (3872, 3891), (4160, 4169), (4240, 4249),
  (4969, 4988), (5870, 5872), (6112, 6121), (6128, 6137), (6160, 6169), (6470, 6479),
  (6608, 6618), (6784, 6793), (6800, 6809), (6992, 7001), (7088, 7097), (7232, 7241),
  (7248, 7257), (8304, 8304), (8308, 8313), (8320, 8329), (8528, 8578), (8581, 8585),
  (9312, 9371), (9450, 9471), (10102, 10131), (11517, 11517), (12295, 12295), (12321, 12329),
  (12344, 12346), (12690, 12693), (12832, 12841), (12872, 12879), (12881, 12895), (12928, 12937),
  (12977, 12991), (42528, 42537), (42726, 42735), (43056, 43061), (43216, 43225), (43264, 43273),
  (43472, 43481), (43504, 43513), (43600, 43609), (44016, 44025), (65296, 65305), (65799, 65843),
  (65856, 65912), (65930, 65931), (66273, 66299), (66336, 66339), (66369, 66369), (66378, 66378),
  (66513, 66517), (66720, 66729), (67672, 67679), (67705, 67711), (67751, 67759), (67835, 67839),
  (67862, 67867), (68028, 68029), (68032, 68047), (68050, 68095), (68160, 68168), (68221, 68222),
  (68253, 68255), (68331, 68335), (68440, 68447), (68472, 68479), (68521, 68527), (68858, 68863),
  (68912, 68921), (69216, 69246), (69405, 69414), (69457, 69460), (69573, 69579), (69714, 69743),
  (69872, 69881), (69942, 69951), (70096, 70105), (70113, 70132), (70384, 70393), (70736, 70745),
  (70864, 70873), (71248, 71257), (71360, 71369), (71472, 71483), (71904, 71922), (72016, 72025),
  (72784, 72812), (73040, 73049), (73120, 73129), (73664, 73684), (74752, 74862), (92768, 92777),
  (92864, 92873), (93008, 93017), (93019, 93025), (93824, 93846), (119520, 119539),
  (119648, 119672), (120782, 120831), (123200, 123209), (123632, 123641), (125127, 125135),
  (125264, 125273), (126065, 126123), (126125, 126127), (126129, 126132), (126209, 126253),
  (126255, 126269), (127232, 127244), (130032, 130041)]

/-- Model of Rust's `char::is_numeric`: an ASCII digit or a character in
one of the remaining Nd/Nl/No ranges. On ASCII it coincides with
`Char.isDigit`; `'¾'` and `'٥'` are numeric but not digits. -/
def rust_is_numeric (c : Char) : Bool :=
  c.isDigit || rustNumericRanges.any (fun p => p.1 ≤ c.toNat && c.toNat ≤ p.2)

/-- Bit length of a natural number (zero for zero), fueled; fuel `n + 1`
always suffices since the argument halves each step. -/
def natBitsF : ℕ → ℕ → ℕ
  | 0, _ => 0
  | f + 1, n => if n = 0 then 0 else natBitsF f (n / 2) + 1

/-- Bit length: for `1 ≤ n`, `2 ^ (natBits n - 1) ≤ n < 2 ^ natBits n`. -/
def natBits (n : ℕ) : ℕ := natBitsF (n + 1) n

/-- Round `N / D` (with `D ≠ 0`) to an integer by round-to-nearest with
ties to even. -/
def rdiv (N D : ℕ) : ℕ :=
  let m0 := N / D
  let r := N % D
  if D < 2 * r ∨ (2 * r = D ∧ m0 % 2 = 1) then m0 + 1 else m0

/-- The rational `m * 2 ^ (e - 52)`, written with `mkRat` so that
concrete instances evaluate by kernel reduction. -/
def pow2val (m : ℕ) (e : ℤ) : ℚ :=
  if 52 ≤ e then ((m * 2 ^ (e - 52).toNat : ℕ) : ℚ)
  else mkRat m (2 ^ (52 - e).toNat)

/-- Round the nonnegative rational `a / b` (with `b ≠ 0`) to binary64
with round-to-nearest, ties-to-even: the significand is rounded to 53
bits at the value's binade, subnormals are rounded at fixed scale
`2 ^ (-1074)`, and values beyond the largest finite double overflow to
infinity. The result of `parse::<f64>` on the tokenizer's literals is
exactly this (literals are never negative: there is no unary minus). -/
def roundF64Pos (a b : ℕ) : FP :=
  if a = 0 then .finite 0
  else
    let e0 : ℤ := (natBits a : ℤ) - (natBits b : ℤ)
    let e : ℤ := if b * 2 ^ e0.toNat ≤ a * 2 ^ (-e0).toNat then e0 else e0 - 1
    if 1023 < e then .posInf
    else if e < -1022 then .finite (mkRat (rdiv (a * 2 ^ 1074) b) (2 ^ 1074))
    else
      let m := rdiv (a * 2 ^ ((52 : ℤ) - e).toNat) (b * 2 ^ (e - 52).toNat)
      if m = 2 ^ 53 then
        if e = 1023 then .posInf else .finite (pow2val (2 ^ 52) (e + 1))
      else .finite (pow2val m e)

/-- Model of `digits.parse::<f64>()` on the tokenizer's accumulated
literals: fails on the empty string, on a character that is neither a
digit nor a point, on more than one point, or when no digit is present;
otherwise returns the exact decimal value (see the header: rounding to
binary64 is not modelled). -/
def parseNumLit (s : List Char) : Option ℚ :=
  if s = [] then none
  else if ¬ (s.all fun c => c.isDigit || c = '.') then none
  else if 1 < countDots s then none
  else if ¬ s.any (fun c => c.isDigit) then none
  else
    let ip := s.takeWhile (· ≠ '.')
    let fp := (s.dropWhile (· ≠ '.')).drop 1
    match roundF64Pos (digitsToNat ip * 10 ^ fp.length + digitsToNat fp) (10 ^ fp.length) with
    | .finite q => some q
    | _ => none

/-- The tokenizer's inner number-literal loop (source lines 32-48): given
the characters after the leading digit, the accumulator and the
has-decimal flag, greedily consume numeric characters (`is_numeric`, as
the source does — not just ASCII digits) and at most one point. Returns
the accumulated literal and the unconsumed remainder, or fails on a
second decimal point. -/
def scanNum : List Char → List Char → Bool → Except Err (List Char × List Char)
  | [], acc, _ => .ok (acc, [])
  | k :: rest, acc, hasDec =>
    if rust_is_numeric k then scanNum rest (acc ++ [k]) hasDec
    else if k = '.' then
      if hasDec then .error .invalidExpression
      else scanNum rest (acc ++ ['.']) true
    else .ok (acc, k :: rest)

/-- The tokenizer's main loop (source lines 25-54), fueled; the `Eof`
token is appended when the characters are exhausted. The fuel-zero arm is
unreachable for any fuel exceeding the input length
(`tokenize_loopF_fuel`). -/
def tokenize_loopF : ℕ → List Char → Except Err (List Token)
  | 0, _ => .error .invalidExpression
  | _ + 1, [] => .ok [Token.eof]
  | f + 1, c :: rest =>
    if c = '-' then (tokenize_loopF f rest).map (Token.sub :: ·)
    else if c = '+' then (tokenize_loopF f rest).map (Token.add :: ·)
    else if c = 'x' then (tokenize_loopF f rest).map (Token.mul :: ·)
    else if c = '/' then (tokenize_loopF f rest).map (Token.div :: ·)
    else if c.isDigit then
      match scanNum rest [c] false with
      | .error e => .error e
      | .ok (lit, rest2) =>
        match parseNumLit lit with
        | none => .error .numericParseFailure
        | some v => (tokenize_loopF f rest2).map (Token.number v :: ·)
    else if c = ' ' then tokenize_loopF f rest
    else if c = '\n' then tokenize_loopF f rest
    else .error (.unrecognizedChar c)

/-- `tokenize` (source lines 16-58): fail on empty input or when the first
character is not numeric (`is_numeric`, checked by peeking, before any
character is consumed and before any whitespace is skipped), then run
the main loop. -/
def tokenize (src : List Char) : Except Err (List Token) :=
  match src with
  | [] => .error .invalidExpression
  | c :: _ =>
    if rust_is_numeric c then tokenize_loopF (src.length + 1) src
    else .error .invalidExpression

/-- `parse_primary_exp` (source lines 174-180): succeed with a `Number`
node exactly when the next token is a `Number` (consuming it); otherwise
yield no node and consume nothing. -/
def parse_primary_exp (ts : List Token) : Except Err (Option ASTNode × List Token) :=
  match ts with
  | Token.number n :: rest => .ok (some (ASTNode.number n), rest)
  | _ => .ok (none, ts)

/-- Outcome of matching the peeked token at the head of a parser loop:
found an operator, found a bare `Number` (an error), or break. -/
inductive LoopAct
  | op (o : Op)
  | err
  | brk
deriving DecidableEq, Repr

/-- The multiplicative loop's token match (source lines 152-157). -/
def mulAct : Token → LoopAct
  | .mul => .op .mul
  | .div => .op .div
  | .number _ => .err
  | _ => .brk

/-- The additive loop's token match (source lines 124-129). -/
def addAct : Token → LoopAct
  | .add => .op .add
  | .sub => .op .sub
  | .number _ => .err
  | _ => .brk

/-- The `while` loop of `parse_multiplicative` (source lines 151-169),
fueled: peek a token, classify it, on an operator consume it and parse a
primary right operand, extending the expression on success and breaking
(with the operator consumed) when no operand follows. The fuel-zero arm
is unreachable for any fuel exceeding the token count
(`parse_multiplicative_loopF_fuel`). -/
def parse_multiplicative_loopF : ℕ → ASTNode → List Token → Except Err (ASTNode × List Token)
  | 0, _, _ => .error .invalidExpression
  | _ + 1, expr, [] => .ok (expr, [])
  | f + 1, expr, t :: rest =>
    match mulAct t with
    | .err => .error .invalidExpression
    | .brk => .ok (expr, t :: rest)
    | .op o =>
      match parse_primary_exp rest with
      | .error e => .error e
      | .ok (none, rest2) => .ok (expr, rest2)
      | .ok (some right, rest2) =>
        parse_multiplicative_loopF f (ASTNode.binaryOp expr o right) rest2

/-- The loop of `parse_multiplicative` with its canonical fuel. -/
def parse_multiplicative_loop (expr : ASTNode) (ts : List Token) :
    Except Err (ASTNode × List Token) :=
  parse_multiplicative_loopF (ts.length + 1) expr ts

/-- `parse_multiplicative` (source lines 146-172): parse a primary left
operand (propagating "no node" when there is none), then loop. -/
def parse_multiplicative (ts : List Token) : Except Err (Option ASTNode × List Token) :=
  match parse_primary_exp ts with
  | .error e => .error e
  | .ok (none, rest) => .ok (none, rest)
  | .ok (some expr, rest) =>
    match parse_multiplicative_loop expr rest with
    | .error e => .error e
    | .ok (expr2, rest2) => .ok (some expr2, rest2)

/-- The `while` loop of `parse_additive` (source lines 123-141), fueled;
right operands come from `parse_multiplicative`. The fuel-zero arm is
unreachable for any fuel exceeding the token count
(`parse_additive_loopF_fuel`). -/
def parse_additive_loopF : ℕ → ASTNode → List Token → Except Err (ASTNode × List Token)
  | 0, _, _ => .error .invalidExpression
  | _ + 1, expr, [] => .ok (expr, [])
  | f + 1, expr, t :: rest =>
    match addAct t with
    | .err => .error .invalidExpression
    | .brk => .ok (expr, t :: rest)
    | .op o =>
      match parse_multiplicative rest with
      | .error e => .error e
      | .ok (none, rest2) => .ok (expr, rest2)
      | .ok (some right, rest2) =>
        parse_additive_loopF f (ASTNode.binaryOp expr o right) rest2

/-- The loop of `parse_additive` with its canonical fuel. -/
def parse_additive_loop (expr : ASTNode) (ts : List Token) :
    Except Err (ASTNode × List Token) :=
  parse_additive_loopF (ts.length + 1) expr ts

/-- `parse_additive` (source lines 118-144). -/
def parse_additive (ts : List Token) : Except Err (Option ASTNode × List Token) :=
  match parse_multiplicative ts with
  | .error e => .error e
  | .ok (none, rest) => .ok (none, rest)
  | .ok (some expr, rest) =>
    match parse_additive_loop expr rest with
    | .error e => .error e
    | .ok (expr2, rest2) => .ok (some expr2, rest2)

/-- `parse_program` (source lines 114-116). -/
def parse_program (ts : List Token) : Except Err (Option ASTNode × List Token) :=
  parse_additive ts

/-- Decimal digit character of a value below ten. -/
def digitChar : ℕ → Char
  | 0 => '0'
  | 1 => '1'
  | 2 => '2'
  | 3 => '3'
  | 4 => '4'
  | 5 => '5'
  | 6 => '6'
  | 7 => '7'
  | 8 => '8'
  | _ => '9'

/-- Decimal digits of a natural number, fueled (most significant first);
fuel `n + 1` always suffices since the argument shrinks by a factor of
ten per step. -/
def natDigitsF : ℕ → ℕ → List Char
  | 0, _ => []
  | f + 1, n =>
    if n < 10 then [digitChar n]
    else natDigitsF f (n / 10) ++ [digitChar (n % 10)]

/-- Decimal digits of a natural number, most significant first. -/
def natDigits (n : ℕ) : List Char := natDigitsF (n + 1) n

/-- Truncation of a rational toward zero, as `f64::trunc` does. -/
def ratTrunc (q : ℚ) : ℤ := q.num.tdiv q.den

/-- The rational `q - t` for an integer `t`, written via `Rat.divInt` so
that concrete instances evaluate by kernel reduction (`Rat.sub` is
irreducible); `ratSubInt_eq` shows it is exactly subtraction. -/
def ratSubInt (q : ℚ) (t : ℤ) : ℚ := Rat.divInt (q.num - t * q.den) q.den

/-- The rational `10 * q`, written via `Rat.divInt` (see `ratSubInt`);
`ratMulTen_eq` shows it is exactly multiplication by ten. -/
def ratMulTen (q : ℚ) : ℚ := Rat.divInt (q.num * 10) q.den

/-- Model of `f64::fract`: `self - self.trunc()`; NaN on the non-finite
values (`inf - inf` and `nan - nan` are NaN). -/
def FP.fract : FP → FP
  | .finite q => .finite (ratSubInt q (ratTrunc q))
  | _ => .nan

/-- Digits of the terminating decimal expansion of a fractional part in
`[0, 1)`, fueled (the expansion of every value reached below terminates
well within 100 digits). -/
def fracDigits : ℕ → ℚ → List Char
  | 0, _ => []
  | f + 1, q =>
    if q = 0 then []
    else
      let d : ℤ := ratTrunc (ratMulTen q)
      digitChar d.toNat :: fracDigits f (ratSubInt (ratMulTen q) d)

/-- Model of Rust's default `Display` for a finite `f64` value: sign,
integer part, and (when nonzero) the fractional expansion after a point. -/
def renderRat (q : ℚ) : List Char :=
  let sgn : List Char := if q < 0 then ['-'] else []
  let a : ℚ := if q < 0 then -q else q
  let ip : ℤ := ratTrunc a
  let fr : ℚ := ratSubInt a ip
  sgn ++ natDigits ip.natAbs ++ (if fr = 0 then [] else '.' :: fracDigits 100 fr)

/-- Model of `format!("{}", v)`: `inf`, `-inf` and `NaN` as Rust prints
them; finite values via `renderRat`. -/
def fmtDefault : FP → List Char
  | .nan => ['N', 'a', 'N']
  | .posInf => ['i', 'n', 'f']
  | .negInf => ['-', 'i', 'n', 'f']
  | .finite q => renderRat q

/-- Model of `format!("{:.0}", v)` on the values on which `format_float`
invokes it: `format_float` only does so when `v.fract() == 0.0`, i.e. on
integral finite values, where zero-decimal rendering is the plain
integer. -/
def fmtFixed0 : FP → List Char
  | .nan => ['N', 'a', 'N']
  | .posInf => ['i', 'n', 'f']
  | .negInf => ['-', 'i', 'n', 'f']
  | .finite q => (if q < 0 then ['-'] else []) ++ natDigits q.num.natAbs

/-- `format_float` (source lines 183-189): zero decimal digits when the
fractional part is exactly zero, the default rendering otherwise (the
comparison `NaN == 0.0` is false, so non-finite values take the default
branch, as in the source). -/
def format_float (v : FP) : String :=
  if FP.fract v = FP.finite 0 then ⟨fmtFixed0 v⟩ else ⟨fmtDefault v⟩

/-- The core pipeline of `main` (source lines 255-261) up to evaluation:
tokenize, parse, surface "no expression" as `ParseFailure`, evaluate. -/
def eval_pipeline (src : List Char) : Except Err FP :=
  match tokenize src with
  | .error e => .error e
  | .ok ts =>
    match parse_program ts with
    | .error e => .error e
    | .ok (none, _) => .error .parseFailure
    | .ok (some ast, _) => .ok ast.eval

/-- The full pipeline of `main`: evaluate, then format the result. -/
def run_calc (expr : String) : Except Err String :=
  (eval_pipeline expr.data).map format_float

deriving instance DecidableEq for Except

/-- True when the head of the token list is not a `Number` token (used to
state that the parser never leaves a bare `Number` at the front of the
unconsumed input). -/
def headNotNumber : List Token → Bool
  | Token.number _ :: _ => false
  | _ => true

/-- The additive loop's token match with the bare-`Number` error arm
replaced by a plain break: used to state that this error arm of
`parse_additive` is unreachable. -/
def addActTrunc : Token → LoopAct
  | .add => .op .add
  | .sub => .op .sub
  | _ => .brk

/-- The loop of `parse_additive` with `addActTrunc` instead of `addAct`
(identical otherwise). -/
def parse_additive_loop_altF : ℕ → ASTNode → List Token → Except Err (ASTNode × List Token)
  | 0, _, _ => .error .invalidExpression
  | _ + 1, expr, [] => .ok (expr, [])
  | f + 1, expr, t :: rest =>
    match addActTrunc t with
    | .err => .error .invalidExpression
    | .brk => .ok (expr, t :: rest)
    | .op o =>
      match parse_multiplicative rest with
      | .error e => .error e
      | .ok (none, rest2) => .ok (expr, rest2)
      | .ok (some right, rest2) =>
        parse_additive_loop_altF f (ASTNode.binaryOp expr o right) rest2

/-- `parse_additive` built on the loop variant without the bare-`Number`
error arm; `claim_C10` proves it agrees with `parse_additive` on every
token sequence, i.e. that arm is unreachable. -/
def parse_additive_alt (ts : List Token) : Except Err (Option ASTNode × List Token) :=
  match parse_multiplicative ts with
  | .error e => .error e
  | .ok (none, rest) => .ok (none, rest)
  | .ok (some expr, rest) =>
    match parse_additive_loop_altF (rest.length + 1) expr rest with
    | .error e => .error e
    | .ok (expr2, rest2) => .ok (some expr2, rest2)

theorem ratSubInt_eq (q : ℚ) (t : ℤ) : ratSubInt q t = q - t := by
  have hd : ((q.den : ℤ) : ℚ) ≠ 0 := by
    exact_mod_cast (Nat.cast_ne_zero (R := ℚ)).2 q.den_nz
  rw [ratSubInt, Rat.divInt_eq_div]
  push_cast
  rw [sub_div, Rat.num_div_den, mul_div_assoc, div_self (by exact_mod_cast hd), mul_one]

theorem ratMulTen_eq (q : ℚ) : ratMulTen q = q * 10 := by
  conv_rhs => rw [← Rat.num_div_den q]
  rw [ratMulTen, Rat.divInt_eq_div]
  push_cast
  ring

@[simp] theorem roundF64Pos_0 : roundF64Pos 0 1 = .finite 0 := by decide

@[simp] theorem roundF64Pos_1 : roundF64Pos 1 1 = .finite 1 := by decide

@[simp] theorem roundF64Pos_2 : roundF64Pos 2 1 = .finite 2 := by decide

@[simp] theorem roundF64Pos_3 : roundF64Pos 3 1 = .finite 3 := by decide

@[simp] theorem roundF64Pos_4 : roundF64Pos 4 1 = .finite 4 := by decide

@[simp] theorem roundF64Pos_5 : roundF64Pos 5 1 = .finite 5 := by decide

@[simp] theorem roundF64Pos_10 : roundF64Pos 10 1 = .finite 10 := by decide

set_option maxRecDepth 8000

theorem eval_str1 : eval_pipeline "2+3x4".data = .ok (.finite 14) := by
  norm_num +decide [eval_pipeline, tokenize, tokenize_loopF, scanNum, parseNumLit,
    parse_program, parse_additive, parse_multiplicative, parse_primary_exp,
    parse_additive_loop, parse_additive_loopF, parse_multiplicative_loop,
    parse_multiplicative_loopF, mulAct, addAct, ASTNode.eval, FP.add, FP.mul,
    FP.sub, FP.div, digitsToNat, digitVal, countDots, Except.map]

theorem eval_str2 : eval_pipeline "2x3+4".data = .ok (.finite 10) := by
  norm_num +decide [eval_pipeline, tokenize, tokenize_loopF, scanNum, parseNumLit,
    parse_program, parse_additive, parse_multiplicative, parse_primary_exp,
    parse_additive_loop, parse_additive_loopF, parse_multiplicative_loop,
    parse_multiplicative_loopF, mulAct, addAct, ASTNode.eval, FP.add, FP.mul,
    FP.sub, FP.div, digitsToNat, digitVal, countDots, Except.map]

theorem eval_str3 : eval_pipeline "2 + 3 x 4".data = .ok (.finite 14) := by
  norm_num +decide [eval_pipeline, tokenize, tokenize_loopF, scanNum, parseNumLit,
    parse_program, parse_additive, parse_multiplicative, parse_primary_exp,
    parse_additive_loop, parse_additive_loopF, parse_multiplicative_loop,
    parse_multiplicative_loopF, mulAct, addAct, ASTNode.eval, FP.add, FP.mul,
    FP.sub, FP.div, digitsToNat, digitVal, countDots, Except.map]

theorem eval_str4 : eval_pipeline "5 + 3 / 2".data = .ok (.finite (13 / 2)) := by
  norm_num +decide [eval_pipeline, tokenize, tokenize_loopF, scanNum, parseNumLit,
    parse_program, parse_additive, parse_multiplicative, parse_primary_exp,
    parse_additive_loop, parse_additive_loopF, parse_multiplicative_loop,
    parse_multiplicative_loopF, mulAct, addAct, ASTNode.eval, FP.add, FP.mul,
    FP.sub, FP.div, digitsToNat, digitVal, countDots, Except.map]

theorem eval_str5 : eval_pipeline "10-2-3".data = .ok (.finite 5) := by
  norm_num +decide [eval_pipeline, tokenize, tokenize_loopF, scanNum, parseNumLit,
    parse_program, parse_additive, parse_multiplicative, parse_primary_exp,
    parse_additive_loop, parse_additive_loopF, parse_multiplicative_loop,
    parse_multiplicative_loopF, mulAct, addAct, ASTNode.eval, FP.add, FP.mul,
    FP.sub, FP.div, digitsToNat, digitVal, countDots, Except.map]

theorem eval_str6 : eval_pipeline "5/0".data = .ok .posInf := by
  norm_num +decide [eval_pipeline, tokenize, tokenize_loopF, scanNum, parseNumLit,
    parse_program, parse_additive, parse_multiplicative, parse_primary_exp,
    parse_additive_loop, parse_additive_loopF, parse_multiplicative_loop,
    parse_multiplicative_loopF, mulAct, addAct, ASTNode.eval, FP.add, FP.mul,
    FP.sub, FP.div, digitsToNat, digitVal, countDots, Except.map]

theorem eval_str7 : eval_pipeline "0/0".data = .ok .nan := by
  norm_num +decide [eval_pipeline, tokenize, tokenize_loopF, scanNum, parseNumLit,
    parse_program, parse_additive, parse_multiplicative, parse_primary_exp,
    parse_additive_loop, parse_additive_loopF, parse_multiplicative_loop,
    parse_multiplicative_loopF, mulAct, addAct, ASTNode.eval, FP.add, FP.mul,
    FP.sub, FP.div, digitsToNat, digitVal, countDots, Except.map]

theorem tokenize_str8 : tokenize "1+x2 3".data =
    .ok [Token.number 1, Token.add, Token.mul, Token.number 2, Token.number 3, Token.eof] := by
  norm_num +decide [tokenize, tokenize_loopF, scanNum, parseNumLit, digitsToNat,
    digitVal, countDots, Except.map]

theorem eval_str8 : eval_pipeline "1+x2 3".data = .ok (.finite 1) := by
  norm_num +decide [eval_pipeline, tokenize, tokenize_loopF, scanNum, parseNumLit,
    parse_program, parse_additive, parse_multiplicative, parse_primary_exp,
    parse_additive_loop, parse_additive_loopF, parse_multiplicative_loop,
    parse_multiplicative_loopF, mulAct, addAct, ASTNode.eval, FP.add, FP.mul,
    FP.sub, FP.div, digitsToNat, digitVal, countDots, Except.map]

theorem eval_str9 : eval_pipeline "2 3".data = .error .invalidExpression := by
  norm_num +decide [eval_pipeline, tokenize, tokenize_loopF, scanNum, parseNumLit,
    parse_program, parse_additive, parse_multiplicative, parse_primary_exp,
    parse_additive_loop, parse_additive_loopF, parse_multiplicative_loop,
    parse_multiplicative_loopF, mulAct, addAct, ASTNode.eval, FP.add, FP.mul,
    FP.sub, FP.div, digitsToNat, digitVal, countDots, Except.map]

theorem tokenize_str10 : tokenize "5 +".data = .ok [Token.number 5, Token.add, Token.eof] := by
  norm_num +decide [tokenize, tokenize_loopF, scanNum, parseNumLit, digitsToNat,
    digitVal, countDots, Except.map]

theorem eval_str10 : eval_pipeline "5 +".data = .ok (.finite 5) := by
  norm_num +decide [eval_pipeline, tokenize, tokenize_loopF, scanNum, parseNumLit,
    parse_program, parse_additive, parse_multiplicative, parse_primary_exp,
    parse_additive_loop, parse_additive_loopF, parse_multiplicative_loop,
    parse_multiplicative_loopF, mulAct, addAct, ASTNode.eval, FP.add, FP.mul,
    FP.sub, FP.div, digitsToNat, digitVal, countDots, Except.map]

theorem run_str3 : run_calc "2 + 3 x 4" = .ok "14" := by
  show (eval_pipeline "2 + 3 x 4".data).map format_float = .ok "14"
  rw [eval_str3]
  exact congrArg Except.ok (by decide)

theorem run_str4 : run_calc "5 + 3 / 2" = .ok "6.5" := by
  have hq : (13 / 2 : ℚ) = Rat.mk' 13 2 (by decide) (by decide) := by
    refine Rat.ext ?_ ?_ <;> norm_num
  show (eval_pipeline "5 + 3 / 2".data).map format_float = .ok "6.5"
  rw [eval_str4, hq]
  exact congrArg Except.ok (by decide)

theorem run_str6 : run_calc "5/0" = .ok "inf" := by
  show (eval_pipeline "5/0".data).map format_float = .ok "inf"
  rw [eval_str6]
  exact congrArg Except.ok (by decide)

theorem run_str7 : run_calc "0/0" = .ok "NaN" := by
  show (eval_pipeline "0/0".data).map format_float = .ok "NaN"
  rw [eval_str7]
  exact congrArg Except.ok (by decide)

theorem run_str8 : run_calc "1+x2 3" = .ok "1" := by
  show (eval_pipeline "1+x2 3".data).map format_float = .ok "1"
  rw [eval_str8]
  exact congrArg Except.ok (by decide)

theorem run_str9 : run_calc "2 3" = .error .invalidExpression := by
  show (eval_pipeline "2 3".data).map format_float = .error .invalidExpression
  rw [eval_str9]
  rfl

theorem run_str10 : run_calc "5 +" = .ok "5" := by
  show (eval_pipeline "5 +".data).map format_float = .ok "5"
  rw [eval_str10]
  exact congrArg Except.ok (by decide)

theorem scanNum_ok_length (src : List Char) : ∀ (acc : List Char) (hd : Bool)
    (lit r : List Char), scanNum src acc hd = .ok (lit, r) → r.length ≤ src.length := by
  induction src with
  | nil =>
    intro acc hd lit r h
    simp only [scanNum, Except.ok.injEq, Prod.mk.injEq] at h
    simp [← h.2]
  | cons k rest ih =>
    intro acc hd lit r h
    simp only [scanNum] at h
    split at h
    · exact le_trans (ih _ _ _ _ h) (by simp)
    · split at h
      · split at h
        · exact absurd h (by simp)
        · exact le_trans (ih _ _ _ _ h) (by simp)
      · simp only [Except.ok.injEq, Prod.mk.injEq] at h
        simp [← h.2]

theorem scanNum_err (src : List Char) : ∀ (acc : List Char) (hd : Bool) (e : Err),
    scanNum src acc hd = .error e → e = .invalidExpression := by
  induction src with
  | nil =>
    intro acc hd e h
    exact absurd h (by simp [scanNum])
  | cons k rest ih =>
    intro acc hd e h
    simp only [scanNum] at h
    split at h
    · exact ih _ _ _ h
    · split at h
      · split at h
        · simp only [Except.error.injEq] at h
          exact h.symm
        · exact ih _ _ _ h
      · exact absurd h (by simp)

theorem tokenize_loopF_fuel : ∀ (f g : ℕ) (src : List Char), src.length < f →
    src.length < g → tokenize_loopF f src = tokenize_loopF g src := by
  intro f
  induction f with
  | zero => intro g src hf _; exact absurd hf (Nat.not_lt_zero _)
  | succ f ih =>
    intro g src hf hg
    match g, src with
    | 0, src => exact absurd hg (Nat.not_lt_zero _)
    | g + 1, [] => rfl
    | g + 1, c :: rest =>
      have hr : rest.length < f := by simp only [List.length_cons] at hf; omega
      have hrg : rest.length < g := by simp only [List.length_cons] at hg; omega
      simp only [tokenize_loopF]
      split
      · exact congrArg _ (ih g rest hr hrg)
      · split
        · exact congrArg _ (ih g rest hr hrg)
        · split
          · exact congrArg _ (ih g rest hr hrg)
          · split
            · exact congrArg _ (ih g rest hr hrg)
            · split
              · split
                · rfl
                · split
                  · rfl
                  · next lit rest2 heq _ v _ =>
                    have h2 := scanNum_ok_length rest [c] false lit rest2 heq
                    exact congrArg _ (ih g rest2 (by omega) (by omega))
              · split
                · exact ih g rest hr hrg
                · split
                  · exact ih g rest hr hrg
                  · rfl

theorem parse_primary_exp_none (ts r : List Token)
    (h : parse_primary_exp ts = .ok (none, r)) : r = ts ∧ headNotNumber ts = true := by
  cases ts with
  | nil =>
    simp only [parse_primary_exp, Except.ok.injEq, Prod.mk.injEq, true_and] at h
    exact ⟨h.symm, rfl⟩
  | cons t rest =>
    cases t <;>
      simp only [parse_primary_exp, Except.ok.injEq, Prod.mk.injEq, true_and] at h <;>
      first
      | exact ⟨h.symm, rfl⟩
      | exact absurd h.1 (by simp)

theorem parse_primary_exp_some (ts r : List Token) (e : ASTNode)
    (h : parse_primary_exp ts = .ok (some e, r)) :
    ∃ n, ts = Token.number n :: r ∧ e = ASTNode.number n := by
  cases ts with
  | nil => simp only [parse_primary_exp, Except.ok.injEq, Prod.mk.injEq] at h; exact absurd h.1 (by simp)
  | cons t rest =>
    cases t <;>
      simp only [parse_primary_exp, Except.ok.injEq, Prod.mk.injEq, Option.some.injEq] at h
    case number n => exact ⟨n, by rw [h.2], h.1.symm⟩
    all_goals exact absurd h.1 (by simp)

theorem parse_primary_exp_ne_error (ts : List Token) (e : Err) :
    parse_primary_exp ts ≠ .error e := by
  cases ts with
  | nil => simp [parse_primary_exp]
  | cons t rest => cases t <;> simp [parse_primary_exp]

theorem mulAct_brk_not_number (t : Token) (h : mulAct t = .brk) :
    ∀ rest, headNotNumber (t :: rest) = true := by
  cases t <;> simp_all [mulAct, headNotNumber]

theorem addAct_brk_not_number (t : Token) (h : addAct t = .brk) :
    ∀ rest, headNotNumber (t :: rest) = true := by
  cases t <;> simp_all [addAct, headNotNumber]

theorem parse_multiplicative_loopF_length : ∀ (f : ℕ) (e : ASTNode) (ts : List Token)
    (e2 : ASTNode) (r : List Token),
    parse_multiplicative_loopF f e ts = .ok (e2, r) → r.length ≤ ts.length := by
  intro f
  induction f with
  | zero => intro e ts e2 r h; exact absurd h (by simp [parse_multiplicative_loopF])
  | succ f ih =>
    intro e ts e2 r h
    match ts with
    | [] =>
      simp only [parse_multiplicative_loopF, Except.ok.injEq, Prod.mk.injEq] at h
      simp [← h.2]
    | t :: rest =>
      simp only [parse_multiplicative_loopF] at h
      cases hact : mulAct t with
      | err => rw [hact] at h; exact absurd h (by simp)
      | brk =>
        rw [hact] at h
        simp only [Except.ok.injEq, Prod.mk.injEq] at h
        simp [← h.2]
      | op o =>
        rw [hact] at h
        cases hp : parse_primary_exp rest with
        | error e' => rw [hp] at h; exact absurd h (by simp)
        | ok pr =>
          obtain ⟨opt, rest2⟩ := pr
          cases opt with
          | none =>
            rw [hp] at h
            simp only [Except.ok.injEq, Prod.mk.injEq] at h
            obtain ⟨rfl, _⟩ := parse_primary_exp_none rest rest2 hp
            simp [← h.2]
          | some right =>
            rw [hp] at h
            have h1 := ih _ _ _ _ h
            obtain ⟨n, hn, _⟩ := parse_primary_exp_some rest rest2 right hp
            rw [hn]
            simp only [List.length_cons]
            omega

theorem parse_multiplicative_loopF_headNotNumber : ∀ (f : ℕ) (e : ASTNode) (ts : List Token)
    (e2 : ASTNode) (r : List Token),
    parse_multiplicative_loopF f e ts = .ok (e2, r) → headNotNumber r = true := by
  intro f
  induction f with
  | zero => intro e ts e2 r h; exact absurd h (by simp [parse_multiplicative_loopF])
  | succ f ih =>
    intro e ts e2 r h
    match ts with
    | [] =>
      simp only [parse_multiplicative_loopF, Except.ok.injEq, Prod.mk.injEq] at h
      rw [← h.2]
      rfl
    | t :: rest =>
      simp only [parse_multiplicative_loopF] at h
      cases hact : mulAct t with
      | err => rw [hact] at h; exact absurd h (by simp)
      | brk =>
        rw [hact] at h
        simp only [Except.ok.injEq, Prod.mk.injEq] at h
        rw [← h.2]
        exact mulAct_brk_not_number t hact rest
      | op o =>
        rw [hact] at h
        cases hp : parse_primary_exp rest with
        | error e' => rw [hp] at h; exact absurd h (by simp)
        | ok pr =>
          obtain ⟨opt, rest2⟩ := pr
          cases opt with
          | none =>
            rw [hp] at h
            simp only [Except.ok.injEq, Prod.mk.injEq] at h
            obtain ⟨hr2, hhead⟩ := parse_primary_exp_none rest rest2 hp
            rw [← h.2, hr2]
            exact hhead
          | some right =>
            rw [hp] at h
            exact ih _ _ _ _ h

theorem parse_multiplicative_loopF_fuel : ∀ (f g : ℕ) (e : ASTNode) (ts : List Token),
    ts.length < f → ts.length < g →
    parse_multiplicative_loopF f e ts = parse_multiplicative_loopF g e ts := by
  intro f
  induction f with
  | zero => intro g e ts hf _; exact absurd hf (Nat.not_lt_zero _)
  | succ f ih =>
    intro g e ts hf hg
    match g, ts with
    | 0, ts => exact absurd hg (Nat.not_lt_zero _)
    | g + 1, [] => rfl
    | g + 1, t :: rest =>
      simp only [parse_multiplicative_loopF]
      cases mulAct t with
      | err => rfl
      | brk => rfl
      | op o =>
        cases hp : parse_primary_exp rest with
        | error e' => rfl
        | ok pr =>
          obtain ⟨opt, rest2⟩ := pr
          cases opt with
          | none => rfl
          | some right =>
            have h1 : rest2.length < rest.length := by
              obtain ⟨n, hn, _⟩ := parse_primary_exp_some rest rest2 right hp
              rw [hn]; simp
            simp only [List.length_cons] at hf hg
            exact ih g _ rest2 (by omega) (by omega)

theorem parse_multiplicative_ok_some (ts r : List Token) (e : ASTNode)
    (h : parse_multiplicative ts = .ok (some e, r)) :
    r.length < ts.length ∧ headNotNumber r = true := by
  unfold parse_multiplicative at h
  cases hp : parse_primary_exp ts with
  | error e' => simp only [hp] at h; exact absurd h (by simp)
  | ok pr =>
    obtain ⟨opt, rest⟩ := pr
    cases opt with
    | none => simp only [hp] at h; exact absurd h (by simp)
    | some e0 =>
      simp only [hp] at h
      cases hl : parse_multiplicative_loop e0 rest with
      | error e' => simp only [hl] at h; exact absurd h (by simp)
      | ok pr2 =>
        obtain ⟨e2, rest2⟩ := pr2
        simp only [hl, Except.ok.injEq, Prod.mk.injEq, Option.some.injEq] at h
        obtain ⟨n, hn, _⟩ := parse_primary_exp_some ts rest e0 hp
        have h1 := parse_multiplicative_loopF_length _ _ _ _ _ hl
        have h2 := parse_multiplicative_loopF_headNotNumber _ _ _ _ _ hl
        constructor
        · rw [← h.2, hn]; simp only [List.length_cons]; omega
        · rw [← h.2]; exact h2

theorem parse_additive_loopF_fuel : ∀ (f g : ℕ) (e : ASTNode) (ts : List Token),
    ts.length < f → ts.length < g →
    parse_additive_loopF f e ts = parse_additive_loopF g e ts := by
  intro f
  induction f with
  | zero => intro g e ts hf _; exact absurd hf (Nat.not_lt_zero _)
  | succ f ih =>
    intro g e ts hf hg
    match g, ts with
    | 0, ts => exact absurd hg (Nat.not_lt_zero _)
    | g + 1, [] => rfl
    | g + 1, t :: rest =>
      simp only [parse_additive_loopF]
      cases addAct t with
      | err => rfl
      | brk => rfl
      | op o =>
        cases hm : parse_multiplicative rest with
        | error e' => rfl
        | ok pr =>
          obtain ⟨opt, rest2⟩ := pr
          cases opt with
          | none => rfl
          | some right =>
            have h1 := (parse_multiplicative_ok_some rest rest2 right hm).1
            simp only [List.length_cons] at hf hg
            exact ih g _ rest2 (by omega) (by omega)

theorem addActTrunc_eq (t : Token) (rest : List Token)
    (h : headNotNumber (t :: rest) = true) : addActTrunc t = addAct t := by
  cases t <;> simp_all [headNotNumber, addAct, addActTrunc]

theorem parse_additive_loop_altF_eq : ∀ (f : ℕ) (e : ASTNode) (ts : List Token),
    headNotNumber ts = true →
    parse_additive_loop_altF f e ts = parse_additive_loopF f e ts := by
  intro f
  induction f with
  | zero => intro e ts _; rfl
  | succ f ih =>
    intro e ts hh
    match ts with
    | [] => rfl
    | t :: rest =>
      simp only [parse_additive_loopF, parse_additive_loop_altF, addActTrunc_eq t rest hh]
      cases addAct t with
      | err => rfl
      | brk => rfl
      | op o =>
        cases hm : parse_multiplicative rest with
        | error e' => rfl
        | ok pr =>
          obtain ⟨opt, rest2⟩ := pr
          cases opt with
          | none => rfl
          | some right =>
            exact ih _ rest2 (parse_multiplicative_ok_some rest rest2 right hm).2

theorem digitChar_ne_dot (d : ℕ) : digitChar d ≠ '.' := by
  unfold digitChar
  split <;> decide

theorem natDigitsF_no_dot : ∀ (f n : ℕ), '.' ∉ natDigitsF f n := by
  intro f
  induction f with
  | zero => intro n; simp [natDigitsF]
  | succ f ih =>
    intro n
    simp only [natDigitsF]
    split
    · intro hmem
      simp only [List.mem_singleton] at hmem
      exact digitChar_ne_dot n hmem.symm
    · intro hmem
      rcases List.mem_append.mp hmem with h | h
      · exact ih _ h
      · simp only [List.mem_singleton] at h
        exact digitChar_ne_dot _ h.symm

theorem natDigitsF_fuel : ∀ (f g n : ℕ), n < f → n < g → natDigitsF f n = natDigitsF g n := by
  intro f
  induction f with
  | zero => intro g n hf _; exact absurd hf (Nat.not_lt_zero _)
  | succ f ih =>
    intro g n hf hg
    match g with
    | 0 => exact absurd hg (Nat.not_lt_zero _)
    | g + 1 =>
      simp only [natDigitsF]
      split
      · rfl
      · have hdiv : n / 10 < n := Nat.div_lt_self (by omega) (by omega)
        rw [ih g (n / 10) (by omega) (by omega)]

/-- C1: multiplicative operators bind tighter than additive ones:
tokenizing, parsing and evaluating yields 14 for "2+3x4" and 10 for
"2x3+4"; the full pipeline renders "2 + 3 x 4" as "14" and "5 + 3 / 2"
as "6.5". -/
theorem claim_C1 :
    eval_pipeline "2+3x4".data = .ok (.finite 14) ∧
    eval_pipeline "2x3+4".data = .ok (.finite 10) ∧
    run_calc "2 + 3 x 4" = .ok "14" ∧
    run_calc "5 + 3 / 2" = .ok "6.5" :=
  ⟨eval_str1, eval_str2, run_str3, run_str4⟩

/-- C2: repeated same-precedence operators left-associate: for all a, b,
c the token sequence of "a - b - c" parses as "(a - b) - c", and
evaluating "10-2-3" yields 5. -/
theorem claim_C2 :
    (∀ a b c : ℚ, parse_program [Token.number a, Token.sub, Token.number b, Token.sub,
        Token.number c, Token.eof] =
      .ok (some (ASTNode.binaryOp (ASTNode.binaryOp (ASTNode.number a) Op.sub
        (ASTNode.number b)) Op.sub (ASTNode.number c)), [Token.eof])) ∧
    eval_pipeline "10-2-3".data = .ok (.finite 5) :=
  ⟨fun _ _ _ => rfl, eval_str5⟩

/-- Counterexample to C3 as stated: the character '¾' is not a digit,
yet tokenizing an input that starts with it does not fail with
InvalidExpression — char::is_numeric accepts it, so the initial
validation passes and the dispatch then fails with UnrecognizedCharacter. -/
theorem claim_C3_counterexample :
    ('¾'.isDigit = false) ∧
    tokenize ['¾'] = .error (.unrecognizedChar '¾') ∧
    tokenize ['¾'] ≠ .error .invalidExpression := by
  refine ⟨rfl, rfl, fun h => ?_⟩
  rw [show tokenize ['¾'] = .error (.unrecognizedChar '¾') from rfl] at h
  exact absurd h (by simp)

/-- C3 as amended: tokenize fails with InvalidExpression on empty input
and whenever the first character is not numeric (char::is_numeric); in
particular "+5" and an input beginning with a space (no leading-
whitespace skipping) are rejected. A first character that is numeric but
not an ASCII digit passes this check and fails later with
UnrecognizedCharacter instead. -/
theorem claim_C3 :
    tokenize [] = .error .invalidExpression ∧
    (∀ (c : Char) (rest : List Char), rust_is_numeric c = false →
      tokenize (c :: rest) = .error .invalidExpression) ∧
    tokenize "+5".data = .error .invalidExpression ∧
    tokenize (' ' :: "5".data) = .error .invalidExpression := by
  refine ⟨rfl, ?_, rfl, rfl⟩
  intro c rest h
  simp [tokenize, h]

/-- Witness for C3 at the concrete first character 'a'. -/
theorem claim_C3_witness : tokenize ['a'] = .error .invalidExpression :=
  claim_C3.2.1 'a' [] (by decide)

/-- C4 is contradicted by the code: the literal-accumulation loop admits
every is_numeric character, not only the digits the spec's filtering
describes, so the literal "1¾" is accumulated whole and its f64
conversion fails — tokenizing "1¾" returns the NumericParseFailure that
the claim says is unreachable. -/
theorem claim_C4 : tokenize "1¾".data = .error .numericParseFailure := rfl

/-- Counterexample to C5 as stated: the token sequence of "1+x2 3"
contains the adjacent Number tokens 2 and 3 with no operator between
them, yet parsing succeeds (returning Number 1 and leaving them
unconsumed), and the full pipeline prints "1". -/
theorem claim_C5_counterexample :
    tokenize "1+x2 3".data = .ok [Token.number 1, Token.add, Token.mul, Token.number 2,
      Token.number 3, Token.eof] ∧
    parse_program [Token.number 1, Token.add, Token.mul, Token.number 2, Token.number 3,
      Token.eof] = .ok (some (ASTNode.number 1), [Token.mul, Token.number 2, Token.number 3,
      Token.eof]) ∧
    run_calc "1+x2 3" = .ok "1" :=
  ⟨tokenize_str8, rfl, run_str8⟩

/-- C5 as amended: whenever the additive or multiplicative operator loop
meets a bare Number token where an operator was expected, parsing fails
immediately with InvalidExpression; in particular "2 3" fails. Adjacent
Number tokens beyond the consumed prefix do not trigger this. -/
theorem claim_C5 :
    (∀ (e : ASTNode) (n : ℚ) (ts : List Token),
      parse_additive_loop e (Token.number n :: ts) = .error .invalidExpression) ∧
    (∀ (e : ASTNode) (n : ℚ) (ts : List Token),
      parse_multiplicative_loop e (Token.number n :: ts) = .error .invalidExpression) ∧
    parse_program [Token.number 2, Token.number 3, Token.eof] = .error .invalidExpression ∧
    eval_pipeline "2 3".data = .error .invalidExpression :=
  ⟨fun _ _ _ => rfl, fun _ _ _ => rfl, rfl, eval_str9⟩

/-- C6: a dangling additive or multiplicative operator whose right operand
production yields no node is consumed and tolerated by truncation, never
by failure; in particular "5 +" parses as the single node Number 5. -/
theorem claim_C6 :
    (∀ (e : ASTNode) (r r2 : List Token), parse_primary_exp r = .ok (none, r2) →
      parse_multiplicative_loop e (Token.mul :: r) = .ok (e, r2) ∧
      parse_multiplicative_loop e (Token.div :: r) = .ok (e, r2)) ∧
    (∀ (e : ASTNode) (r r2 : List Token), parse_multiplicative r = .ok (none, r2) →
      parse_additive_loop e (Token.add :: r) = .ok (e, r2) ∧
      parse_additive_loop e (Token.sub :: r) = .ok (e, r2)) ∧
    parse_program [Token.number 5, Token.add, Token.eof] =
      .ok (some (ASTNode.number 5), [Token.eof]) ∧
    run_calc "5 +" = .ok "5" := by
  refine ⟨?_, ?_, rfl, run_str10⟩
  · intro e r r2 h
    constructor <;>
      simp only [parse_multiplicative_loop, List.length_cons, parse_multiplicative_loopF,
        mulAct, h]
  · intro e r r2 h
    constructor <;>
      simp only [parse_additive_loop, List.length_cons, parse_additive_loopF, addAct, h]

/-- Witness for C6: the dangling-operator truncation at a concrete input. -/
theorem claim_C6_witness :
    parse_multiplicative_loop (ASTNode.number 5) [Token.mul, Token.eof] =
      .ok (ASTNode.number 5, [Token.eof]) :=
  (claim_C6.1 (ASTNode.number 5) [Token.eof] [Token.eof] rfl).1

/-- C7: evaluation is total over the AST type and follows IEEE-754
special-value semantics: "5/0" evaluates to positive infinity, 0/0 to
NaN, and the formatter renders infinities and NaN as the platform does
("inf", "-inf", "NaN") without failing. -/
theorem claim_C7 :
    eval_pipeline "5/0".data = .ok .posInf ∧
    eval_pipeline "0/0".data = .ok .nan ∧
    FP.div (.finite 0) (.finite 0) = .nan ∧
    run_calc "5/0" = .ok "inf" ∧
    run_calc "0/0" = .ok "NaN" ∧
    format_float .posInf = "inf" ∧
    format_float .negInf = "-inf" ∧
    format_float .nan = "NaN" :=
  ⟨eval_str6, eval_str7, by decide, run_str6, run_str7, rfl, rfl, rfl⟩

/-- C8: when a value's fractional part is exactly zero it is rendered
with zero decimal digits (no decimal point appears); otherwise the
default decimal rendering is used: 7.0 prints as "7" and 7.5 as "7.5". -/
theorem claim_C8 :
    (∀ v : FP, FP.fract v = FP.finite 0 → '.' ∉ (format_float v).data) ∧
    format_float (.finite 7) = "7" ∧
    format_float (.finite (7.5 : ℚ)) = "7.5" := by
  refine ⟨?_, by decide, ?_⟩
  · intro v h
    rw [format_float, if_pos h]
    cases v with
    | finite q =>
      show '.' ∉ (if q < 0 then ['-'] else []) ++ natDigits q.num.natAbs
      intro hmem
      rcases List.mem_append.mp hmem with hm | hm
      · split at hm
        · simp only [List.mem_singleton] at hm
          exact absurd hm (by decide)
        · simp at hm
      · exact natDigitsF_no_dot _ _ hm
    | posInf => exact absurd h (by simp [FP.fract])
    | negInf => exact absurd h (by simp [FP.fract])
    | nan => exact absurd h (by simp [FP.fract])
  · have hq : (7.5 : ℚ) = Rat.mk' 15 2 (by decide) (by decide) := by
      refine Rat.ext ?_ ?_ <;> norm_num
    rw [hq]
    decide

/-- Witness for C8 at the concrete integral value 7. -/
theorem claim_C8_witness : '.' ∉ (format_float (.finite 7)).data :=
  claim_C8.1 (.finite 7) (by decide)

/-- C10: a successful parse_multiplicative with a node never leaves a
Number token as the next unconsumed token, and consequently the bare-
Number error arm of parse_additive's loop is unreachable: replacing it
by a plain break (parse_additive_alt) changes nothing on any input. -/
theorem claim_C10 :
    (∀ (ts r : List Token) (e : ASTNode), parse_multiplicative ts = .ok (some e, r) →
      headNotNumber r = true) ∧
    (∀ ts : List Token, parse_additive_alt ts = parse_additive ts) := by
  constructor
  · intro ts r e h
    exact (parse_multiplicative_ok_some ts r e h).2
  · intro ts
    unfold parse_additive_alt parse_additive parse_additive_loop
    cases hm : parse_multiplicative ts with
    | error e => rfl
    | ok pr =>
      obtain ⟨opt, rest⟩ := pr
      cases opt with
      | none => rfl
      | some e0 =>
        simp only [parse_additive_loop_altF_eq (rest.length + 1) e0 rest
          (parse_multiplicative_ok_some ts rest e0 hm).2]

/-- Witness for C10: after parsing the number 7 the next token is Eof,
not a Number. -/
theorem claim_C10_witness : headNotNumber [Token.eof] = true :=
  claim_C10.1 [Token.number 7, Token.eof] [Token.eof] (ASTNode.number 7) rfl
